import Mathlib

/-!
Shallow embedding of `tracker.go` (package `tracker`), a call-tracing
utility: a `Track` accumulates timestamped checkpoints (`Meta`) and renders
them through a pluggable `Renderer` (a table renderer or a JSON renderer).

Modelling conventions:
* `time.Time` instants are `Nat`; `time.Duration` (int64 nanoseconds) is `Int`.
* A Go function that can panic is modelled with an `Option` result
  (`none` = runtime panic) or with an explicit `RenderResult.panicked`.
* A Go function returning `error` is modelled with `Except String`.
* The call stack consulted by `runtime.Callers` is a `List String` of frame
  names, indexed from the `runtime.Callers` frame itself.
* Output sinks (`io.Writer`) are external collaborators: a renderer's write
  is modelled as the value it would write, returned in `RenderResult`.
-/

namespace Tracker

/-- One checkpoint record (Go struct `Meta`): name, creation instant,
duration since the previous checkpoint (`Dur`), duration since the first
checkpoint (`StartDif`), and the optional caller-supplied error. -/
structure Meta where
  Name : String
  Start : Nat
  Dur : Int
  StartDif : Int
  Err : Option String
deriving DecidableEq

/-- Go `type MetaData []Meta`. -/
abbrev MetaData := List Meta

/-- Go struct `Options`: the five column toggles plus the unused `withLink`. -/
structure Options where
  withErrors : Bool
  withName : Bool
  withSinceStart : Bool
  withDuration : Bool
  withTrack : Bool
  withLink : Bool
deriving DecidableEq, Fintype

/-- Go struct `RenderOptions`. -/
structure RenderOptions where
  Divider : Int
deriving DecidableEq

/-- Go struct `TableRender`; the `Out io.Writer` sink is external and the
render result is returned instead of written, so only the `*RenderOptions`
field is carried (`none` models a nil pointer). -/
structure TableRender where
  Options : Option RenderOptions
deriving DecidableEq

/-- Go struct `JSONRender`; as for `TableRender`, only the options pointer. -/
structure JSONRender where
  Options : Option RenderOptions
deriving DecidableEq

/-- The two `Renderer` implementations provided by the package. -/
inductive RendererImpl where
  | table (tbr : TableRender)
  | json (jsr : JSONRender)
deriving DecidableEq

/-- Go struct `Track`. `options` models the `*Options` pointer (`none` =
nil, i.e. `Configure` never called); `renderer` models the embedded
`Renderer` interface value (`none` = no renderer installed). -/
structure Track where
  Data : MetaData
  Loggable : Bool
  callerSkip : Int
  options : Option Options
  renderer : Option RendererImpl
deriving DecidableEq

/-- What a renderer would write to its sink. -/
inductive Output where
  | table (headers : List String) (rows : List (List String))
  | json (payload : String)
deriving DecidableEq

/-- Result of a rendering call.  `panicked` is a Go runtime panic,
`diverge` an infinite loop, `failed` an error value returned to the caller
(no render path in the source ever produces it: `Track.Render` and both
`Renderer.Render` implementations return nothing), `done` a normal
completion carrying the bytes written to the sink. -/
inductive RenderResult where
  | panicked (msg : String)
  | diverge
  | failed (msg : String)
  | done (out : Output)
deriving DecidableEq

/-- Evaluates to `true` iff the result is an error value returned to the
caller. -/
def RenderResult.isFail : RenderResult → Bool
  | .failed _ => true
  | _ => false

/-- Evaluates to `true` iff the render completed and produced output. -/
def RenderResult.isDone : RenderResult → Bool
  | .done _ => true
  | _ => false

/-- Go panic message for a nil-pointer dereference. -/
def nilDerefMsg : String :=
  "runtime error: invalid memory address or nil pointer dereference"

/-- Go panic message for division by zero. -/
def divZeroMsg : String := "runtime error: integer divide by zero"

/-- Go `func trace(skip int) string` (lines 269-274).
`pc := make([]uintptr, skip)` panics for `skip < 0` (negative length) and
`pc[0]` panics for `skip = 0` (index out of an empty slice); `none` models
these two panics.  Otherwise `pc[0]` holds the frame at depth `skip` when
the stack is that deep; when it is shallower, `pc[0]` stays `0`,
`runtime.FuncForPC(0)` is nil, and `Name()` on a nil `*runtime.Func` is
documented to return the empty string, so the call succeeds with `""`. -/
def trace (skip : Int) (stack : List String) : Option String :=
  if skip ≤ 0 then none
  else some ((stack.get? skip.toNat).getD "")

/-- Go `func New(callerSkip int) *Track` (lines 64-77): a fresh `Track`
whose `Data` holds the single initial checkpoint with zero-valued `Dur`
and `StartDif` and no error.  The `t.Loggable` branch is dead (the field
is still its zero value `false`).  `none` propagates a panic of `trace`. -/
def New (callerSkip : Int) (stack : List String) (now : Nat) : Option Track :=
  (trace callerSkip stack).map fun name =>
    { Data := [{ Name := name, Start := now, Dur := 0, StartDif := 0, Err := none }]
      Loggable := false
      callerSkip := callerSkip
      options := none
      renderer := none }

/-- Go `func (iter Meta) Since() time.Duration` = `time.Since(iter.Start)`:
the current instant minus the checkpoint's instant. -/
def Meta.Since (iter : Meta) (now : Nat) : Int :=
  (now : Int) - (iter.Start : Int)

/-- Go `func (t *Track) Update(err error) error` (lines 81-101): guard on an
empty `Data`, then append one checkpoint whose `Dur` is measured from the
last checkpoint and `StartDif` from the first.  The outer `Option` models a
panic inside `trace`; the returned pair is the tracker after the call
together with the `error` result (`Except.ok ()` = Go `nil`). -/
def Track.Update (t : Track) (err : Option String) (stack : List String) (now : Nat) :
    Option (Track × Except String Unit) :=
  if h : t.Data = [] then
    some (t, Except.error "at first need to invoke New(int)")
  else
    (trace t.callerSkip stack).map fun name =>
      let meta : Meta :=
        { Name := name
          Start := now
          Dur := (t.Data.getLast h).Since now
          StartDif := (t.Data.head h).Since now
          Err := err }
      ({ t with Data := t.Data ++ [meta] }, Except.ok ())

/-- Go `func (m MetaData) MaxDuration() time.Duration` (lines 118-126):
fold of `if max < v.Dur { max = v.Dur }` starting from the zero duration. -/
def MetaData.MaxDuration (m : MetaData) : Int :=
  m.foldl (fun mx v => if mx < v.Dur then v.Dur else mx) 0

/-- The loop of `MinDuration` over `m[1:]` carrying the running minimum and
the loop index (`i == 0` forces the first element in unconditionally). -/
def minLoop : List Meta → Int → Nat → Int
  | [], mn, _ => mn
  | e :: es, mn, i => minLoop es (if i = 0 ∨ e.Dur < mn then e.Dur else mn) (i + 1)

/-- Go `func (m MetaData) MinDuration() time.Duration` (lines 128-138).
The slice expression `m[1:]` panics when `m` is empty (bounds `[1:0]`),
modelled by `none`. -/
def MetaData.MinDuration : MetaData → Option Int
  | [] => none
  | _ :: rest => some (minLoop rest 0 0)

/-- Go `func createHeaders(s []string, opt *Options) []string`
(lines 186-204). -/
def createHeaders (s : List String) (opt : Options) : List String :=
  let s := if opt.withName then s ++ ["func.name"] else s
  let s := if opt.withSinceStart then s ++ ["since.start"] else s
  let s := if opt.withDuration then s ++ ["duration"] else s
  let s := if opt.withErrors then s ++ ["errors"] else s
  let s := if opt.withTrack then s ++ ["track"] else s
  s

/-- Go `func createRow(opt *Options, meta Meta, timeLine string) []string`
(lines 206-228); a nil `Err` yields an empty error cell. -/
def createRow (opt : Options) (meta : Meta) (timeLine : String) : List String :=
  let s : List String := []
  let s := if opt.withName then s ++ [meta.Name] else s
  let s := if opt.withSinceStart then s ++ [toString meta.StartDif] else s
  let s := if opt.withDuration then s ++ [toString meta.Dur] else s
  let s := if opt.withErrors then
      s ++ [match meta.Err with | none => "" | some e => e]
    else s
  let s := if opt.withTrack then s ++ [timeLine] else s
  s

/-- Lines 157-159 of `TableRender.Render`: `if v.Err == nil { v.Err =
errors.New("") }`.  `v` is the `range` variable, a by-value copy of
`data[i]`, so this assignment never reaches the slice; the row is built
from `data[i]` directly. -/
def rangeErrPatch (v : Meta) : Meta :=
  match v.Err with
  | none => { v with Err := some "" }
  | some _ => v

/-- The marker loop `for k := 0; k < int(data[i].Dur); k += step`
(lines 163-165), counting iterations.  The `0 < step` guard inside the
`if` is only what makes the recursion well founded; `buildTimeLine` never
calls this with `step ≤ 0` on a path where the Go loop would run. -/
def starLoop (dur step k : Int) : Nat :=
  if h : 0 < step ∧ k < dur then starLoop dur step (k + step) + 1 else 0
termination_by (dur - k).toNat
decreasing_by
  omega

/-- The accumulation `timeLine = timeLine + "*"` performed `n` times. -/
def starString : Nat → String
  | 0 => ""
  | n + 1 => starString n ++ "*"

/-- The `timeLine` built for one row: with a positive `step` the loop makes
`starLoop dur step 0` iterations; with `step ≤ 0` it makes none when
`dur ≤ 0` and otherwise never terminates (`k` never increases towards
`dur`), modelled by `none`. -/
def buildTimeLine (dur step : Int) : Option String :=
  if 0 < step then some (starString (starLoop dur step 0))
  else if dur ≤ 0 then some ""
  else none

/-- The row loop of `TableRender.Render` (lines 154-170) over the remaining
elements of `full`: per iteration the dead copy-patch of lines 157-159, the
step `int(data.MaxDuration()) / tbr.Options.Divider` recomputed as in the
source, the marker loop, and `createRow` applied to the original element.
`none` propagates a non-terminating marker loop. -/
def rowsFor (o : Options) (full : MetaData) (ro : RenderOptions) :
    List Meta → Option (List (List String))
  | [] => some []
  | m :: ms =>
    let _v := rangeErrPatch m
    let step := Int.tdiv (MetaData.MaxDuration full) ro.Divider
    match buildTimeLine m.Dur step with
    | none => none
    | some tl =>
      match rowsFor o full ro ms with
      | none => none
      | some rest => some (createRow o m tl :: rest)

/-- The slice `data` after the row loop of `TableRender.Render`: the loop
reads `data[i]` and writes only the local copy `v` (see `rangeErrPatch`),
so every stored element is passed through unchanged. -/
def traceAfterTableRender : MetaData → MetaData
  | [] => []
  | m :: ms =>
    let _v := rangeErrPatch m
    m :: traceAfterTableRender ms

/-- The library call `json.MarshalIndent` is an external collaborator;
this concrete encoder stands for its treatment of the error field.  A nil
error encodes as `null`; a non-nil error built by `errors.New` is a struct
with no exported fields and encodes as an empty object. -/
def jsonOfErr : Option String → String
  | none => "null"
  | some _ => "\x7b\x7d"

/-- Encoding of one `Meta` with its Go JSON field tags. -/
def jsonOfMeta (m : Meta) : String :=
  "\x7b\"name\":\"" ++ m.Name ++ "\",\"start\":" ++ toString m.Start ++
    ",\"dur\":" ++ toString m.Dur ++ ",\"start_dif\":" ++ toString m.StartDif ++
    ",\"error\":" ++ jsonOfErr m.Err ++ "\x7d"

/-- Encoding of the whole trace (a JSON array). -/
def jsonEncode (data : MetaData) : String :=
  "[" ++ String.intercalate "," (data.map jsonOfMeta) ++ "]"

/-- The slice `data` after `JSONRender.Render`: `json.MarshalIndent`
receives it read-only. -/
def traceAfterJSONRender (data : MetaData) : MetaData := data

/-- Go `func (tbr TableRender) Render(data MetaData, opt *Options)`
(lines 148-173).  `createHeaders` dereferences `opt` first; with a
non-empty `data` the first loop iteration dereferences `tbr.Options` and
divides by `Divider`, so a nil options pointer or a zero divider panics
before anything is appended; the table is written to the sink only by the
final `table.Render()`. -/
def TableRender.Render (tbr : TableRender) (data : MetaData) (opt : Option Tracker.Options) :
    RenderResult :=
  match opt with
  | none => RenderResult.panicked nilDerefMsg
  | some o =>
    let headers := createHeaders [] o
    match data with
    | [] => RenderResult.done (Output.table headers [])
    | _ :: _ =>
      match tbr.Options with
      | none => RenderResult.panicked nilDerefMsg
      | some ro =>
        if ro.Divider = 0 then RenderResult.panicked divZeroMsg
        else
          match rowsFor o data ro data with
          | none => RenderResult.diverge
          | some rows => RenderResult.done (Output.table headers rows)

/-- Go `func (jsr JSONRender) Render(data MetaData, opt *Options)`
(lines 175-184): marshals `data` and writes it; neither `opt` nor
`jsr.Options` is ever read. -/
def JSONRender.Render (_jsr : JSONRender) (data : MetaData) (_opt : Option Tracker.Options) :
    RenderResult :=
  RenderResult.done (Output.json (jsonEncode data))

/-- Go `func (t *Track) Configure() *Options` (lines 230-233): stores a
fresh all-false `Options` and returns it for chained toggling. -/
def Track.Configure (t : Track) : Track × Options :=
  let o : Options := ⟨false, false, false, false, false, false⟩
  ({ t with options := some o }, o)

/-- Go `func (o *Options) WithErrors() *Options`. -/
def Options.WithErrors (o : Options) : Options := { o with withErrors := true }

/-- Go `func (o *Options) WithName() *Options`. -/
def Options.WithName (o : Options) : Options := { o with withName := true }

/-- Go `func (o *Options) WithSinceStart() *Options`. -/
def Options.WithSinceStart (o : Options) : Options := { o with withSinceStart := true }

/-- Go `func (o *Options) WithDuration() *Options`. -/
def Options.WithDuration (o : Options) : Options := { o with withDuration := true }

/-- Go `func (o *Options) WithTrack() *Options`. -/
def Options.WithTrack (o : Options) : Options := { o with withTrack := true }

/-- Go `func (t *Track) SetRenderer(render Renderer)` (lines 260-262). -/
def Track.SetRenderer (t : Track) (render : RendererImpl) : Track :=
  { t with renderer := some render }

/-- Go `func (t *Track) Render()` (lines 264-266): a bare call on the
embedded `Renderer` interface.  With no renderer installed the interface
value is nil and the call panics; there is no error return at all. -/
def Track.Render (t : Track) : RenderResult :=
  match t.renderer with
  | none => RenderResult.panicked nilDerefMsg
  | some (.table tbr) => tbr.Render t.Data t.options
  | some (.json jsr) => jsr.Render t.Data t.options

/-! ## Concrete inputs used by witnesses and counterexamples -/

/-- A tracker as produced by `New` with no renderer installed. -/
def c1track : Track := ⟨[⟨"main.main", 0, 0, 0, none⟩], false, 2, none, none⟩

/-- A second renderer-less tracker. -/
def c1track2 : Track := ⟨[⟨"main.run", 3, 0, 0, none⟩], false, 3, none, none⟩

/-- A three-checkpoint trace with durations 0, 10 and 7. -/
def cexData : MetaData :=
  [⟨"a", 0, 0, 0, none⟩, ⟨"b", 10, 10, 10, none⟩, ⟨"c", 17, 7, 17, none⟩]

/-- Options with only the visual track column enabled. -/
def oTrack : Options := ⟨false, false, false, false, true, false⟩

/-- Options with all five columns enabled. -/
def oAll : Options := ⟨true, true, true, true, true, false⟩

/-- A tracker with one checkpoint, as left by `New` with skip depth 2. -/
def t9 : Track := ⟨[⟨"z", 7, 0, 0, none⟩], false, 2, none, none⟩

/-- The tracker/result pair `Track.Update t9 (some "e") ["x","y","z"] 12`
evaluates to. -/
def res9 : Track × Except String Unit :=
  (⟨[⟨"z", 7, 0, 0, none⟩, ⟨"z", 12, 5, 5, some "e"⟩], false, 2, none, none⟩, Except.ok ())

/-- A tracker whose `Data` is empty (not constructible through `New`). -/
def tEmpty : Track := ⟨[], false, 1, none, none⟩

/-- The cell belonging to each header column: used to state that a data
row's cells stand in the same fixed column order as the header. -/
def cellFor (h : String) (meta : Meta) (timeLine : String) : String :=
  if h = "func.name" then meta.Name
  else if h = "since.start" then toString meta.StartDif
  else if h = "duration" then toString meta.Dur
  else if h = "errors" then (match meta.Err with | none => "" | some e => e)
  else timeLine

/-! ## Helper lemmas -/

/-- Bounded-fuel unfolding of `starLoop`: with a positive step the loop
count is the ceiling `((dur - k) + step - 1) / step` (Euclidean division,
clamped to zero from below by `toNat`). -/
theorem starLoop_closed_aux (step : Int) (hstep : 0 < step) :
    ∀ (n : Nat) (dur k : Int), (dur - k).toNat ≤ n →
      starLoop dur step k = ((dur - k + step - 1) / step).toNat := by
  intro n
  induction n with
  | zero =>
    intro dur k hle
    rw [starLoop, dif_neg (by omega : ¬(0 < step ∧ k < dur))]
    have h1 : (dur - k + step - 1) / step < 1 :=
      (Int.ediv_lt_iff_lt_mul hstep).mpr (by omega)
    generalize (dur - k + step - 1) / step = x at h1
    omega
  | succ n ih =>
    intro dur k hle
    by_cases hk : k < dur
    · rw [starLoop, dif_pos ⟨hstep, hk⟩, ih dur (k + step) (by omega)]
      have heq : dur - (k + step) + step - 1 = dur - k + step - 1 + -1 * step := by ring
      rw [heq, Int.add_mul_ediv_right _ _ (by omega : step ≠ 0)]
      have h2 : 1 ≤ (dur - k + step - 1) / step :=
        (Int.le_ediv_iff_mul_le hstep).mpr (by omega)
      generalize (dur - k + step - 1) / step = x at h2 ⊢
      omega
    · rw [starLoop, dif_neg (by omega : ¬(0 < step ∧ k < dur))]
      have h1 : (dur - k + step - 1) / step < 1 :=
        (Int.ediv_lt_iff_lt_mul hstep).mpr (by omega)
      generalize (dur - k + step - 1) / step = x at h1
      omega

/-- Closed form of the marker loop for a positive step. -/
theorem starLoop_closed (dur step k : Int) (hstep : 0 < step) :
    starLoop dur step k = ((dur - k + step - 1) / step).toNat :=
  starLoop_closed_aux step hstep (dur - k).toNat dur k le_rfl

/-- `starString n` has exactly `n` characters. -/
theorem starString_length (n : Nat) : (starString n).length = n := by
  induction n with
  | zero => rfl
  | succ n ih => rw [starString, String.length_append, ih]; rfl

/-- With a positive step, `buildTimeLine` always succeeds with the
closed-form marker count. -/
theorem buildTimeLine_pos (dur step : Int) (hstep : 0 < step) :
    buildTimeLine dur step = some (starString ((dur + step - 1) / step).toNat) := by
  rw [buildTimeLine, if_pos hstep, starLoop_closed dur step 0 hstep]
  have h : dur - 0 + step - 1 = dur + step - 1 := by ring
  rw [h]

/-- The loop count with a positive step is the least `n` with
`n * step ≥ dur` (for positive `dur`): the ceiling of `dur / step`. -/
theorem starLoop_ceil (dur step : Int) (hstep : 0 < step) (hdur : 0 < dur) :
    dur ≤ step * (starLoop dur step 0 : Int) ∧
    step * ((starLoop dur step 0 : Int) - 1) < dur := by
  rw [starLoop_closed dur step 0 hstep]
  have h0 : dur - 0 + step - 1 = dur + step - 1 := by ring
  rw [h0]
  have h1 : 1 ≤ (dur + step - 1) / step :=
    (Int.le_ediv_iff_mul_le hstep).mpr (by omega)
  have htn : (((dur + step - 1) / step).toNat : Int) = (dur + step - 1) / step :=
    Int.toNat_of_nonneg (by linarith)
  rw [htn]
  have h2 : (dur + step - 1) / step * step ≤ dur + step - 1 :=
    Int.ediv_mul_le (dur + step - 1) (by omega)
  have h3 : dur + step - 1 < ((dur + step - 1) / step + 1) * step :=
    Int.lt_ediv_add_one_mul_self (dur + step - 1) hstep
  rw [add_mul, one_mul] at h3
  constructor
  · rw [mul_comm]
    linarith
  · rw [mul_sub, mul_one, mul_comm]
    linarith

/-- The running-max fold of `MaxDuration` never drops below its
accumulator. -/
theorem maxFold_le (l : List Meta) :
    ∀ a : Int, a ≤ l.foldl (fun mx v => if mx < v.Dur then v.Dur else mx) a := by
  induction l with
  | nil => intro a; simp
  | cons v l ih =>
    intro a
    simp only [List.foldl]
    refine le_trans ?_ (ih (if a < v.Dur then v.Dur else a))
    split <;> omega

/-- The running-max fold dominates every member's duration. -/
theorem maxFold_mem (l : List Meta) :
    ∀ (a : Int) (v : Meta), v ∈ l →
      v.Dur ≤ l.foldl (fun mx u => if mx < u.Dur then u.Dur else mx) a := by
  induction l with
  | nil => intro a v hv; cases hv
  | cons u l ih =>
    intro a v hv
    simp only [List.foldl]
    rcases List.mem_cons.mp hv with h | h
    · subst h
      refine le_trans ?_ (maxFold_le l (if a < v.Dur then v.Dur else a))
      split <;> omega
    · exact ih _ v h

/-- `MaxDuration` starts from the zero duration, so it is nonnegative. -/
theorem maxDuration_nonneg (m : MetaData) : 0 ≤ MetaData.MaxDuration m :=
  maxFold_le m 0

/-- Every checkpoint's duration is at most `MaxDuration`. -/
theorem dur_le_maxDuration (data : MetaData) (v : Meta) (hv : v ∈ data) :
    v.Dur ≤ MetaData.MaxDuration data :=
  maxFold_mem data 0 v hv

/-- When every row's `timeLine` computation succeeds, the row loop returns
exactly one `createRow` per element, in order, built from the original
(unpatched) elements. -/
theorem rowsFor_eq (o : Options) (full : MetaData) (ro : RenderOptions)
    (tlf : Meta → String) :
    ∀ l : List Meta,
      (∀ m ∈ l,
        buildTimeLine m.Dur (Int.tdiv (MetaData.MaxDuration full) ro.Divider) =
          some (tlf m)) →
      rowsFor o full ro l = some (l.map fun m => createRow o m (tlf m)) := by
  intro l
  induction l with
  | nil => intro _; rfl
  | cons m ms ih =>
    intro h
    have hm := h m (List.mem_cons_self m ms)
    have hms := ih fun x hx => h x (List.mem_cons_of_mem m hx)
    simp only [rowsFor]
    rw [hm, hms]
    rfl

/-- Evaluation of `TableRender.Render` when every row's marker loop
terminates with `tlf`. -/
theorem render_rows (data : MetaData) (o : Options) (ro : RenderOptions)
    (hdiv : ro.Divider ≠ 0) (tlf : Meta → String)
    (h : ∀ m ∈ data,
      buildTimeLine m.Dur (Int.tdiv (MetaData.MaxDuration data) ro.Divider) =
        some (tlf m)) :
    TableRender.Render ⟨some ro⟩ data (some o) =
      RenderResult.done (Output.table (createHeaders [] o)
        (data.map fun m => createRow o m (tlf m))) := by
  match data with
  | [] => rfl
  | d :: ds =>
    simp only [TableRender.Render]
    rw [if_neg hdiv, rowsFor_eq o (d :: ds) ro tlf (d :: ds) h]

/-- For a loop index `i ≥ 1`, the `MinDuration` loop is a plain
running-minimum fold. -/
theorem minLoop_shift (es : List Meta) :
    ∀ (mn : Int) (i : Nat), i ≠ 0 →
      minLoop es mn i = es.foldl (fun a e => if e.Dur < a then e.Dur else a) mn := by
  induction es with
  | nil => intro mn i _; rfl
  | cons e es ih =>
    intro mn i h
    simp only [minLoop, List.foldl]
    rw [ih (if i = 0 ∨ e.Dur < mn then e.Dur else mn) (i + 1) (Nat.succ_ne_zero i)]
    congr 1
    simp [h]

/-- The running-minimum fold is bounded by its accumulator, bounded by
every member, and attained at the accumulator or at some member. -/
theorem minFold_spec (es : List Meta) :
    ∀ mn : Int,
      es.foldl (fun a e => if e.Dur < a then e.Dur else a) mn ≤ mn ∧
      (∀ e ∈ es, es.foldl (fun a e => if e.Dur < a then e.Dur else a) mn ≤ e.Dur) ∧
      (es.foldl (fun a e => if e.Dur < a then e.Dur else a) mn = mn ∨
        ∃ e ∈ es, es.foldl (fun a e => if e.Dur < a then e.Dur else a) mn = e.Dur) := by
  induction es with
  | nil => intro mn; refine ⟨le_rfl, ?_, Or.inl rfl⟩; intro e he; cases he
  | cons u es ih =>
    intro mn
    simp only [List.foldl]
    rcases ih (if u.Dur < mn then u.Dur else mn) with ⟨hle, hmem, hatt⟩
    refine ⟨le_trans hle (by split <;> omega), ?_, ?_⟩
    · intro e he
      rcases List.mem_cons.mp he with h | h
      · subst h; exact le_trans hle (by split <;> omega)
      · exact hmem e h
    · rcases hatt with h | ⟨e, he, h⟩
      · by_cases hu : u.Dur < mn
        · exact Or.inr ⟨u, List.mem_cons_self u es, by rw [h, if_pos hu]⟩
        · exact Or.inl (by rw [h, if_neg hu])
      · exact Or.inr ⟨e, List.mem_cons_of_mem u he, h⟩

/-! ## Claims -/

/-- C1 (counterexample): on a concrete tracker with no renderer installed,
`render()` panics with a nil-pointer dereference; it does not return any
error value (in particular not `NoRendererConfigured` — Go's
`func (t *Track) Render()` has no error result at all), and it produces no
output. -/
theorem C1_counterexample :
    Track.Render c1track = RenderResult.panicked nilDerefMsg ∧
    (Track.Render c1track).isFail = false ∧
    (Track.Render c1track).isDone = false :=
  ⟨rfl, rfl, rfl⟩

/-- C1 (amended): for every Tracker on which no Renderer has been
installed, calling `render()` panics with a nil-pointer dereference
(rather than failing with a `NoRendererConfigured` error), and writes no
output to any sink. -/
theorem C1_render_no_renderer_panics :
    ∀ t : Track, t.renderer = none →
      Track.Render t = RenderResult.panicked nilDerefMsg ∧
      (Track.Render t).isFail = false ∧
      (Track.Render t).isDone = false := by
  intro t h
  rw [Track.Render, h]
  exact ⟨rfl, rfl, rfl⟩

/-- C1 (witness): the amended statement instantiated on a concrete
renderer-less tracker. -/
theorem C1_witness :
    Track.Render c1track2 = RenderResult.panicked nilDerefMsg ∧
    (Track.Render c1track2).isFail = false ∧
    (Track.Render c1track2).isDone = false :=
  C1_render_no_renderer_panics c1track2 rfl

/-- C2 (counterexample): with a zero divider and a non-empty trace, the
tabular render panics with an integer division by zero instead of treating
the track as zero-length; nothing is produced. -/
theorem C2_counterexample :
    TableRender.Render ⟨some ⟨0⟩⟩ [⟨"main.main", 0, 0, 0, none⟩] (some oAll) =
      RenderResult.panicked divZeroMsg ∧
    (TableRender.Render ⟨some ⟨0⟩⟩ [⟨"main.main", 0, 0, 0, none⟩] (some oAll)).isDone
      = false :=
  ⟨rfl, rfl⟩

/-- C2 (amended): the step division is not guarded.  When the divider is
nonzero and the trace's `maxDuration` is zero, the step is zero, every
row's visual track is the empty string, and the render terminates and
produces the table; but when the divider is zero and the trace is
non-empty, the render panics with an integer division by zero. -/
theorem C2_step_guard :
    (∀ (data : MetaData) (o : Options) (ro : RenderOptions),
      ro.Divider ≠ 0 → MetaData.MaxDuration data = 0 →
      TableRender.Render ⟨some ro⟩ data (some o) =
        RenderResult.done (Output.table (createHeaders [] o)
          (data.map fun m => createRow o m ""))) ∧
    (∀ (data : MetaData) (o : Options) (ro : RenderOptions),
      data ≠ [] → ro.Divider = 0 →
      TableRender.Render ⟨some ro⟩ data (some o) =
        RenderResult.panicked divZeroMsg) := by
  constructor
  · intro data o ro hdiv hmax
    refine render_rows data o ro hdiv (fun _ => "") ?_
    intro m hm
    rw [hmax, Int.zero_tdiv, buildTimeLine, if_neg (by omega : ¬(0:Int) < 0),
      if_pos]
    have := dur_le_maxDuration data m hm
    omega
  · intro data o ro hne hdiv
    match data with
    | [] => exact absurd rfl hne
    | d :: ds =>
      simp only [TableRender.Render]
      rw [if_pos hdiv]

/-- C2 (witness): the amended statement instantiated on a one-checkpoint
trace with divider 4 and zero `maxDuration`. -/
theorem C2_witness :
    TableRender.Render ⟨some ⟨4⟩⟩ [⟨"f", 0, 0, 0, none⟩] (some oAll) =
      RenderResult.done (Output.table (createHeaders [] oAll)
        (([⟨"f", 0, 0, 0, none⟩] : MetaData).map fun m => createRow oAll m "")) :=
  C2_step_guard.1 [⟨"f", 0, 0, 0, none⟩] oAll ⟨4⟩ (by decide) (by decide)

/-- C3 (counterexample): on the trace with durations 0, 10, 7 and divider
4 the step is `10 / 4 = 2`, and the third row's visual track holds 4
markers — `ceil(7 / 2)` — whereas `floor(7 / 2) = 3`. -/
theorem C3_counterexample :
    TableRender.Render ⟨some ⟨4⟩⟩ cexData (some oTrack) =
      RenderResult.done (Output.table ["track"] [[""], ["*****"], ["****"]]) ∧
    ("****".length : Int) ≠
      Int.tdiv 7 (Int.tdiv (MetaData.MaxDuration cexData) 4) := by
  refine ⟨?_, by decide⟩
  have hh : ∀ m ∈ cexData,
      buildTimeLine m.Dur (Int.tdiv (MetaData.MaxDuration cexData) (⟨4⟩ : RenderOptions).Divider) =
        some (starString ((m.Dur + 2 - 1) / 2).toNat) := by
    intro m _
    have hstep : Int.tdiv (MetaData.MaxDuration cexData) (⟨4⟩ : RenderOptions).Divider = 2 := by
      decide
    rw [hstep]
    exact buildTimeLine_pos m.Dur 2 (by decide)
  rw [render_rows cexData oTrack ⟨4⟩ (by decide)
    (fun m => starString ((m.Dur + 2 - 1) / 2).toNat) hh]
  decide

/-- C3 (amended): for every checkpoint, when `step = maxDuration / divider`
is positive the number of marker characters in that row's visual-track
cell is the least `n` with `n * step ≥ durationSincePrevious`, i.e.
`ceil(durationSincePrevious / step)` — not the floor: the loop runs for
`k = 0, step, 2*step, …` while `k < durationSincePrevious`. -/
theorem C3_marker_count :
    (∀ (dur step : Int), 0 < step →
      buildTimeLine dur step = some (starString (starLoop dur step 0)) ∧
      (starString (starLoop dur step 0)).length = starLoop dur step 0) ∧
    (∀ (dur step : Int), 0 < step → 0 < dur →
      dur ≤ step * (starLoop dur step 0 : Int) ∧
      step * ((starLoop dur step 0 : Int) - 1) < dur) ∧
    (∀ (data : MetaData) (o : Options) (ro : RenderOptions),
      ro.Divider ≠ 0 → 0 < Int.tdiv (MetaData.MaxDuration data) ro.Divider →
      TableRender.Render ⟨some ro⟩ data (some o) =
        RenderResult.done (Output.table (createHeaders [] o)
          (data.map fun m => createRow o m
            (starString (starLoop m.Dur
              (Int.tdiv (MetaData.MaxDuration data) ro.Divider) 0))))) := by
  refine ⟨?_, ?_, ?_⟩
  · intro dur step hstep
    exact ⟨by rw [buildTimeLine, if_pos hstep], starString_length _⟩
  · intro dur step hstep hdur
    exact starLoop_ceil dur step hstep hdur
  · intro data o ro hdiv hstep
    refine render_rows data o ro hdiv _ ?_
    intro m _
    rw [buildTimeLine, if_pos hstep]

/-- C3 (witness): at duration 7 and step 2 the loop makes 4 iterations
(`ceil(7/2)`), satisfying the least-`n` characterisation. -/
theorem C3_witness :
    starLoop 7 2 0 = 4 ∧
    ((7:Int) ≤ 2 * (starLoop 7 2 0 : Int) ∧
      (2:Int) * ((starLoop 7 2 0 : Int) - 1) < 7) :=
  ⟨by rw [starLoop_closed 7 2 0 (by decide)]; decide,
   C3_marker_count.2.1 7 2 (by decide) (by decide)⟩

/-- C4: `Update` fails (with the `UninitializedTrace`-style error
`"at first need to invoke New(int)"`) exactly when the Trace is empty, and
then returns the tracker unchanged; on a non-empty Trace any non-panicking
call returns `nil` error and appends exactly one checkpoint carrying the
supplied error. -/
theorem C4_update_spec :
    ∀ (t : Track) (err : Option String) (stack : List String) (now : Nat),
      (t.Data = [] →
        Track.Update t err stack now =
          some (t, Except.error "at first need to invoke New(int)")) ∧
      (t.Data ≠ [] → ∀ res : Track × Except String Unit,
        Track.Update t err stack now = some res →
        res.2 = Except.ok () ∧
        ∃ m : Meta, res.1.Data = t.Data ++ [m] ∧ m.Err = err) := by
  intro t err stack now
  constructor
  · intro h
    rw [Track.Update, dif_pos h]
  · intro h res hres
    rw [Track.Update, dif_neg h] at hres
    rcases Option.map_eq_some'.mp hres with ⟨name, _, heq⟩
    refine ⟨?_, ⟨⟨name, now, (t.Data.getLast h).Since now,
      (t.Data.head h).Since now, err⟩, ?_, rfl⟩⟩
    · rw [← heq]
    · rw [← heq]

/-- C4 (witness): both cases instantiated — an empty-trace tracker yields
the error and is unchanged; a one-checkpoint tracker appends the
checkpoint carrying the supplied error. -/
theorem C4_witness :
    Track.Update tEmpty none ["x"] 3 =
      some (tEmpty, Except.error "at first need to invoke New(int)") ∧
    (res9.2 = Except.ok () ∧
      ∃ m : Meta, res9.1.Data = t9.Data ++ [m] ∧ m.Err = some "e") :=
  ⟨(C4_update_spec tEmpty none ["x"] 3).1 rfl,
   (C4_update_spec t9 (some "e") ["x", "y", "z"] 12).2 (by decide) res9 rfl⟩

/-- C5 (counterexample): on an empty trace `MinDuration` does not return
zero — the slice expression `m[1:]` panics. -/
theorem C5_counterexample : MetaData.MinDuration [] ≠ some 0 := by decide

/-- C5 (amended): `minDuration()` returns the minimum
`durationSincePrevious` across all checkpoints excluding the first when at
least two exist, returns zero when exactly one exists, and panics (rather
than returning zero) on an empty trace. -/
theorem C5_min_duration :
    (∀ a : Meta, MetaData.MinDuration [a] = some 0) ∧
    MetaData.MinDuration [] = none ∧
    (∀ (a r : Meta) (rs : List Meta),
      ∃ d, MetaData.MinDuration (a :: r :: rs) = some d ∧
        (∀ e ∈ r :: rs, d ≤ e.Dur) ∧ (∃ e ∈ r :: rs, d = e.Dur)) := by
  refine ⟨fun a => rfl, rfl, ?_⟩
  intro a r rs
  have h0 : MetaData.MinDuration (a :: r :: rs) =
      some (rs.foldl (fun x e => if e.Dur < x then e.Dur else x) r.Dur) := by
    rw [MetaData.MinDuration]
    simp only [minLoop]
    rw [if_pos (Or.inl trivial), minLoop_shift rs r.Dur (0 + 1) (by omega)]
  rcases minFold_spec rs r.Dur with ⟨hle, hmem, hatt⟩
  refine ⟨_, h0, ?_, ?_⟩
  · intro e he
    rcases List.mem_cons.mp he with h | h
    · subst h; exact hle
    · exact hmem e h
  · rcases hatt with h | ⟨e, he, h⟩
    · exact ⟨r, List.mem_cons_self r rs, h⟩
    · exact ⟨e, List.mem_cons_of_mem r he, h⟩

/-- C6: the Trace is append-only.  `Update` only ever appends (the prior
checkpoint list is a prefix of the new one, and it is returned untouched
on error); the table renderer's row loop passes every stored checkpoint
through unchanged (the `v.Err` assignment of lines 157-159 hits only the
by-value range copy, see `rangeErrPatch`); the JSON renderer reads the
trace without writing it; `SetRenderer` and `Configure` do not touch
`Data`. -/
theorem C6_append_only :
    (∀ (t : Track) (err : Option String) (stack : List String) (now : Nat)
        (res : Track × Except String Unit),
      Track.Update t err stack now = some res →
      ∃ tl, res.1.Data = t.Data ++ tl) ∧
    (∀ data : MetaData, traceAfterTableRender data = data) ∧
    (∀ data : MetaData, traceAfterJSONRender data = data) ∧
    (∀ (t : Track) (r : RendererImpl), (Track.SetRenderer t r).Data = t.Data) ∧
    (∀ t : Track, (Track.Configure t).1.Data = t.Data) := by
  refine ⟨?_, ?_, fun _ => rfl, fun _ _ => rfl, fun _ => rfl⟩
  · intro t err stack now res hres
    rw [Track.Update] at hres
    split at hres
    · refine ⟨[], ?_⟩
      rw [List.append_nil]
      cases hres
      rfl
    · rcases Option.map_eq_some'.mp hres with ⟨name, _, heq⟩
      exact ⟨_, by rw [← heq]⟩
  · intro data
    induction data with
    | nil => rfl
    | cons m ms ih => rw [traceAfterTableRender, ih]

/-- C6 (witness): the `Update` clause instantiated on a concrete
one-checkpoint tracker. -/
theorem C6_witness : ∃ tl, res9.1.Data = t9.Data ++ tl :=
  C6_append_only.1 t9 (some "e") ["x", "y", "z"] 12 res9 rfl

/-- C7: the JSON renderer's output is a function of the Trace alone — for
any two `Options` values (or nil options pointers) and any two renderer
configurations, the rendered payload is identical; the column-selection
options are never read (`json.MarshalIndent(data, …)` sees only `data`). -/
theorem C7_json_ignores_options :
    ∀ (jr1 jr2 : JSONRender) (data : MetaData) (o1 o2 : Option Options),
      JSONRender.Render jr1 data o1 = JSONRender.Render jr2 data o2 := by
  intro _ _ _ _ _
  rfl

/-- C8 helper: header order and presence, decided over all option
combinations. -/
theorem createHeaders_order (o : Options) :
    (createHeaders [] o).Sublist
      ["func.name", "since.start", "duration", "errors", "track"] ∧
    ("func.name" ∈ createHeaders [] o ↔ o.withName = true) ∧
    ("since.start" ∈ createHeaders [] o ↔ o.withSinceStart = true) ∧
    ("duration" ∈ createHeaders [] o ↔ o.withDuration = true) ∧
    ("errors" ∈ createHeaders [] o ↔ o.withErrors = true) ∧
    ("track" ∈ createHeaders [] o ↔ o.withTrack = true) := by
  revert o
  decide

/-- C8 helper: every data row is the header list mapped through
`cellFor`. -/
theorem createRow_aligned (o : Options) (m : Meta) (tl : String) :
    createRow o m tl = (createHeaders [] o).map fun h => cellFor h m tl := by
  rcases o with ⟨e, n, s, d, t, l⟩
  cases e <;> cases n <;> cases s <;> cases d <;> cases t <;>
    simp [createRow, createHeaders, cellFor]

/-- C8: the header contains exactly the columns whose flag is true, in the
fixed order {name, since-start, duration, error, visual-track} (it is a
sublist of that fixed order with membership governed by the flags), and
every data row places its cells in the same column order with the same
count. -/
theorem C8_header_row_alignment :
    ∀ o : Options,
      (createHeaders [] o).Sublist
        ["func.name", "since.start", "duration", "errors", "track"] ∧
      (("func.name" ∈ createHeaders [] o ↔ o.withName = true) ∧
        ("since.start" ∈ createHeaders [] o ↔ o.withSinceStart = true) ∧
        ("duration" ∈ createHeaders [] o ↔ o.withDuration = true) ∧
        ("errors" ∈ createHeaders [] o ↔ o.withErrors = true) ∧
        ("track" ∈ createHeaders [] o ↔ o.withTrack = true)) ∧
      (∀ (m : Meta) (tl : String),
        createRow o m tl = (createHeaders [] o).map fun h => cellFor h m tl) ∧
      (∀ (m : Meta) (tl : String),
        (createRow o m tl).length = (createHeaders [] o).length) := by
  intro o
  refine ⟨(createHeaders_order o).1, (createHeaders_order o).2, fun m tl =>
    createRow_aligned o m tl, fun m tl => ?_⟩
  rw [createRow_aligned o m tl, List.length_map]

/-- C9: every Tracker returned by `New` has a single first checkpoint with
zero `durationSincePrevious` (`Dur`) and zero `durationSinceStart`
(`StartDif`). -/
theorem C9_first_checkpoint_zero :
    ∀ (cs : Int) (stack : List String) (now : Nat) (t : Track),
      New cs stack now = some t →
      ∃ m : Meta, t.Data = [m] ∧ m.Dur = 0 ∧ m.StartDif = 0 := by
  intro cs stack now t h
  rcases Option.map_eq_some'.mp h with ⟨name, _, heq⟩
  exact ⟨⟨name, now, 0, 0, none⟩, by rw [← heq], rfl, rfl⟩

/-- C9 (witness): `New` at skip depth 2 over a three-frame stack. -/
theorem C9_witness :
    ∃ m : Meta, t9.Data = [m] ∧ m.Dur = 0 ∧ m.StartDif = 0 :=
  C9_first_checkpoint_zero 2 ["x", "y", "z"] 7 t9 rfl

/-- C10 (counterexample): at skip depth 5 over a one-frame stack — a stack
too shallow for a frame to resolve — `New` still returns a Tracker (with
the empty name delivered by `Name()` on the nil `*runtime.Func`), refuting
the clause that `New` only returns when the stack is deep enough. -/
theorem C10_counterexample :
    New 5 ["x"] 0 =
      some ⟨[⟨"", 0, 0, 0, none⟩], false, 5, none, none⟩ ∧
    (["x"] : List String).length ≤ (5:Int).toNat :=
  ⟨rfl, by decide⟩

/-- C10 (amended): `New(callerSkip)` panics for every `callerSkip ≤ 0`
(the program-counter buffer has length `callerSkip`, so a negative length
faults at `make` and a zero length faults at `pc[0]`), and `New` returns a
Tracker exactly when `callerSkip ≥ 1`; when the stack is shallower than
`callerSkip` the frame fails to resolve and the returned Tracker's single
checkpoint carries the empty name. -/
theorem C10_skip_behaviour :
    (∀ (cs : Int) (stack : List String) (now : Nat),
      cs ≤ 0 → New cs stack now = none) ∧
    (∀ (cs : Int) (stack : List String) (now : Nat) (t : Track),
      New cs stack now = some t → 1 ≤ cs) ∧
    (∀ (cs : Int) (stack : List String) (now : Nat),
      1 ≤ cs → ∃ t, New cs stack now = some t) ∧
    (∀ (cs : Int) (stack : List String) (now : Nat) (t : Track),
      stack.length ≤ cs.toNat → New cs stack now = some t →
      ∃ m : Meta, t.Data = [m] ∧ m.Name = "") := by
  refine ⟨?_, ?_, ?_, ?_⟩
  · intro cs stack now h
    rw [New, trace, if_pos h]
    rfl
  · intro cs stack now t h
    by_cases hcs : cs ≤ 0
    · rw [New, trace, if_pos hcs] at h
      cases h
    · omega
  · intro cs stack now h
    refine ⟨⟨[⟨(stack.get? cs.toNat).getD "", now, 0, 0, none⟩], false, cs, none, none⟩, ?_⟩
    rw [New, trace, if_neg (by omega : ¬cs ≤ 0)]
    rfl
  · intro cs stack now t hlen h
    by_cases hcs : cs ≤ 0
    · rw [New, trace, if_pos hcs] at h
      cases h
    · rw [New, trace, if_neg hcs, List.get?_eq_none.mpr hlen] at h
      rcases Option.map_eq_some'.mp h with ⟨name, hname, heq⟩
      cases hname
      exact ⟨⟨"", now, 0, 0, none⟩, by rw [← heq]; rfl, rfl⟩

/-- C10 (witness): `New 0` panics; `New 2` over a three-frame stack
returns; and the concrete shallow-stack Tracker returned by `New 5` over a
one-frame stack carries the empty name. -/
theorem C10_witness :
    New 0 ["x"] 5 = none ∧
    (∃ t, New 2 ["x", "y", "z"] 7 = some t) ∧
    (∃ m : Meta,
      (⟨[⟨"", 0, 0, 0, none⟩], false, 5, none, none⟩ : Track).Data = [m] ∧
      m.Name = "") :=
  ⟨C10_skip_behaviour.1 0 ["x"] 5 (by decide),
   C10_skip_behaviour.2.2.1 2 ["x", "y", "z"] 7 (by decide),
   C10_skip_behaviour.2.2.2 5 ["x"] 0
     ⟨[⟨"", 0, 0, 0, none⟩], false, 5, none, none⟩ (by decide) rfl⟩

end Tracker
